import Mathlib

/-!
Verification of `src/lib.rs` of rust-wasm-web-basics.

The whole module is:

  use wasm_bindgen::prelude::*;

  #[wasm_bindgen]
  pub fn log_msg() {
      web_sys::console::log_1(&"Hello, WASM!".into())
  }

We embed the module shallowly.  The browser host is abstract: a handler that
receives host calls and either updates its own state or fails.  The body of
`log_msg` is a program over that interface, transcribed from the source; an
interpreter `run` records the trace of host calls actually issued and the
final outcome.  All claims about the module are proved against this
embedding, for every host handler, host state type and host error type.
-/

/-- Calls the module can make into the host runtime.  The browser console
API is variadic, so a call records the full argument list; the
`web_sys::console::log_1` binding is the variant that supplies exactly one
argument. -/
inductive HostCall where
  | consoleLog (args : List String) : HostCall
  deriving DecidableEq, Repr

/-- Number of arguments a host call passes to the console primitive. -/
def HostCall.argCount : HostCall → Nat
  | consoleLog args => args.length

/-- Programs over the host interface: either return a value, or issue one
host call and continue with its (unit) result.  This is the only effect
shape available to the Rust function body, whose sole capability is calling
`web_sys` bindings. -/
inductive HostProg (α : Type) where
  | pure (a : α) : HostProg α
  | call (c : HostCall) (k : Unit → HostProg α) : HostProg α

namespace console

/-- Embedding of the `web_sys::console::log_1` binding: one `console.log`
invocation carrying exactly one argument, returning unit. -/
def log_1 (arg : String) : HostProg Unit :=
  HostProg.call (HostCall.consoleLog [arg]) (fun _ => HostProg.pure ())

end console

/-- Embedding of the exported entry point, transcribed from `src/lib.rs`.
The Rust function takes no parameters and its body is the single expression
`web_sys::console::log_1(&"Hello, WASM!".into())`, whose unit value is the
function's result; accordingly `log_msg` is a closed constant of type
`HostProg Unit`, not a function. -/
def log_msg : HostProg Unit :=
  console.log_1 "Hello, WASM!"

/-- Export surface generated by `#[wasm_bindgen]`: `pub fn log_msg` is the
only public item of `src/lib.rs`, so the module's interface to the host is
this one named entry point. -/
def wasmExports : List (String × HostProg Unit) :=
  [("log_msg", log_msg)]

/-- Interpreter.  A host handler `h` maps a call and the current host state
to either the updated host state or a host failure.  `run` returns the trace
of calls actually issued together with the outcome; a failing call still
appears in the trace and aborts the program with the host's error, exactly
as a trapping import aborts a wasm function. -/
def run {σ ε α : Type} (h : HostCall → σ → Except ε σ) :
    HostProg α → σ → List HostCall × Except ε (σ × α)
  | HostProg.pure a, s => ([], Except.ok (s, a))
  | HostProg.call c k, s =>
    match h c s with
    | Except.ok s' =>
      let tr := run h (k ()) s'
      (c :: tr.1, tr.2)
    | Except.error e => ([c], Except.error e)

/-- Static bound on the number of host calls a program can issue. -/
def maxCalls {α : Type} : HostProg α → Nat
  | HostProg.pure _ => 0
  | HostProg.call _ k => 1 + maxCalls (k ())

/-- Runs `log_msg` a given number of times in sequence against the same
host, threading the host state and concatenating the traces; a failure stops
the sequence. -/
def runSeq {σ ε : Type} (h : HostCall → σ → Except ε σ) :
    Nat → σ → List HostCall × Except ε σ
  | 0, s => ([], Except.ok s)
  | n + 1, s =>
    match run h log_msg s with
    | (t, Except.ok (s', _)) =>
      let tr := runSeq h n s'
      (t ++ tr.1, tr.2)
    | (t, Except.error e) => (t, Except.error e)

/-- Concrete browser-like host used to evaluate the theorems: the console is
a buffer of logged argument lists and logging never fails. -/
def bufferHost : HostCall → List (List String) → Except Unit (List (List String))
  | HostCall.consoleLog args, buf => Except.ok (buf ++ [args])

/-- Concrete host whose console primitive always fails. -/
def failingHost : HostCall → Unit → Except String Unit
  | _, _ => Except.error "console unavailable"

/-- Helper: on a host state where the logging call succeeds, `run` on
`log_msg` issues that one call and stops with the host's updated state. -/
theorem run_log_msg_ok {σ ε : Type} (h : HostCall → σ → Except ε σ) (s s' : σ)
    (hs : h (HostCall.consoleLog ["Hello, WASM!"]) s = Except.ok s') :
    run h log_msg s =
      ([HostCall.consoleLog ["Hello, WASM!"]], Except.ok (s', ())) := by
  simp [run, log_msg, console.log_1, hs]

/-- Helper: on a host state where the logging call fails, `run` on `log_msg`
issues that one call and stops with the host's error. -/
theorem run_log_msg_error {σ ε : Type} (h : HostCall → σ → Except ε σ) (s : σ) (e : ε)
    (hs : h (HostCall.consoleLog ["Hello, WASM!"]) s = Except.error e) :
    run h log_msg s =
      ([HostCall.consoleLog ["Hello, WASM!"]], Except.error e) := by
  simp [run, log_msg, console.log_1, hs]

/-- Helper: whatever the host does, the trace of one invocation of `log_msg`
is the single logging call with the literal string. -/
theorem run_log_msg_fst {σ ε : Type} (h : HostCall → σ → Except ε σ) (s : σ) :
    (run h log_msg s).1 = [HostCall.consoleLog ["Hello, WASM!"]] := by
  cases hc : h (HostCall.consoleLog ["Hello, WASM!"]) s with
  | ok s' => simp [run, log_msg, console.log_1, hc]
  | error e => simp [run, log_msg, console.log_1, hc]

/-- C1: for every host and host state, an invocation of `log_msg` calls the
host logging facility exactly once, and the argument of that call is the
literal string "Hello, WASM!". -/
theorem log_msg_logs_once {σ ε : Type} (h : HostCall → σ → Except ε σ) (s : σ) :
    (run h log_msg s).1 = [HostCall.consoleLog ["Hello, WASM!"]] :=
  run_log_msg_fst h s

/-- C2: `log_msg` takes no input parameters — its embedding is a closed
constant of type `HostProg Unit`, exposed as such in the export surface —
and on every successful invocation its result is the unit value. -/
theorem log_msg_unit_contract :
    (∃ p : HostProg Unit, wasmExports = [("log_msg", p)]) ∧
      ∀ {σ ε : Type} (h : HostCall → σ → Except ε σ) (s s' : σ),
        h (HostCall.consoleLog ["Hello, WASM!"]) s = Except.ok s' →
          (run h log_msg s).2 = Except.ok (s', ()) := by
  refine ⟨⟨log_msg, rfl⟩, ?_⟩
  intro σ ε h s s' hs
  rw [run_log_msg_ok h s s' hs]

/-- Witness for C2 on the concrete buffer host. -/
theorem log_msg_unit_contract_witness :
    (run bufferHost log_msg []).2 = Except.ok ([["Hello, WASM!"]], ()) :=
  log_msg_unit_contract.2 bufferHost [] [["Hello, WASM!"]] rfl

/-- C3: when the host logging primitive succeeds, the complete observable
outcome of an invocation of `log_msg` is exactly one console write: the
trace holds that single call, the result is unit, and the final host state
is precisely the state the host's own primitive produced — `log_msg` changes
nothing else. -/
theorem log_msg_single_effect {σ ε : Type} (h : HostCall → σ → Except ε σ) (s s' : σ)
    (hs : h (HostCall.consoleLog ["Hello, WASM!"]) s = Except.ok s') :
    run h log_msg s =
      ([HostCall.consoleLog ["Hello, WASM!"]], Except.ok (s', ())) :=
  run_log_msg_ok h s s' hs

/-- Witness for C3 on the concrete buffer host. -/
theorem log_msg_single_effect_witness :
    run bufferHost log_msg [] =
      ([HostCall.consoleLog ["Hello, WASM!"]], Except.ok ([["Hello, WASM!"]], ())) :=
  log_msg_single_effect bufferHost [] [["Hello, WASM!"]] rfl

/-- C4: under normal host operation — the host's logging primitive does not
itself fail on the logged call — an invocation of `log_msg` produces no
error: it defines no error conditions of its own. -/
theorem log_msg_no_own_error {σ ε : Type} (h : HostCall → σ → Except ε σ) (s : σ)
    (hs : ∃ s', h (HostCall.consoleLog ["Hello, WASM!"]) s = Except.ok s') :
    ∃ s', (run h log_msg s).2 = Except.ok (s', ()) := by
  obtain ⟨s', hs'⟩ := hs
  exact ⟨s', by rw [run_log_msg_ok h s s' hs']⟩

/-- Witness for C4 on the concrete buffer host. -/
theorem log_msg_no_own_error_witness :
    ∃ s', (run bufferHost log_msg []).2 = Except.ok (s', ()) :=
  log_msg_no_own_error bufferHost [] ⟨[["Hello, WASM!"]], rfl⟩

/-- C5: `log_msg` is deterministic — any two invocations, against any hosts
and in any host states, issue the identical sequence of logging calls (the
same single call with the same string); the behaviour depends on no input
and on no prior history recorded in the host state. -/
theorem log_msg_deterministic {σ₁ ε₁ σ₂ ε₂ : Type}
    (h₁ : HostCall → σ₁ → Except ε₁ σ₁) (s₁ : σ₁)
    (h₂ : HostCall → σ₂ → Except ε₂ σ₂) (s₂ : σ₂) :
    (run h₁ log_msg s₁).1 = (run h₂ log_msg s₂).1 := by
  rw [run_log_msg_fst h₁ s₁, run_log_msg_fst h₂ s₂]

/-- Helper: the trace of any program is bounded by its static call count. -/
theorem run_length_le_maxCalls {σ ε α : Type} (h : HostCall → σ → Except ε σ)
    (p : HostProg α) (s : σ) : (run h p s).1.length ≤ maxCalls p := by
  induction p generalizing s with
  | pure a => simp [run, maxCalls]
  | call c k ih =>
    cases hc : h c s with
    | ok s' =>
      simp only [run, maxCalls, hc, List.length_cons, Nat.add_comm 1 (maxCalls (k ()))]
      exact Nat.succ_le_succ (ih () s')
    | error e => simp [run, maxCalls, hc]

/-- C6: every invocation of `log_msg` terminates — the program consists of a
single non-recursive host call, its static call bound is 1, and every run
issues exactly one call and returns (successfully or with the host's error)
immediately after it. -/
theorem log_msg_terminates :
    maxCalls log_msg = 1 ∧
      ∀ {σ ε : Type} (h : HostCall → σ → Except ε σ) (s : σ),
        (run h log_msg s).1.length = 1 := by
  refine ⟨rfl, ?_⟩
  intro σ ε h s
  rw [run_log_msg_fst h s]
  rfl

/-- C7: if the host logging primitive fails during an invocation of
`log_msg`, that very failure is the outcome of the invocation — it
propagates unchanged, with no local recovery, retry, or handling. -/
theorem log_msg_propagates_failure {σ ε : Type} (h : HostCall → σ → Except ε σ)
    (s : σ) (e : ε)
    (hs : h (HostCall.consoleLog ["Hello, WASM!"]) s = Except.error e) :
    (run h log_msg s).2 = Except.error e := by
  rw [run_log_msg_error h s e hs]

/-- Witness for C7 on the concrete failing host. -/
theorem log_msg_propagates_failure_witness :
    (run failingHost log_msg ()).2 = Except.error "console unavailable" :=
  log_msg_propagates_failure failingHost () "console unavailable" rfl

/-- C8: `log_msg` is stateless — the module threads no state of its own, so
running it `n` times in sequence against a host whose logging succeeds
issues exactly the same single call each time: the combined trace is `n`
copies of the logging call, independent of how often it was called before. -/
theorem log_msg_stateless {σ ε : Type} (h : HostCall → σ → Except ε σ)
    (hsucc : ∀ c s, ∃ s', h c s = Except.ok s') (n : Nat) (s : σ) :
    (runSeq h n s).1 = List.replicate n (HostCall.consoleLog ["Hello, WASM!"]) := by
  induction n generalizing s with
  | zero => rfl
  | succ m ih =>
    obtain ⟨s', hs'⟩ := hsucc (HostCall.consoleLog ["Hello, WASM!"]) s
    simp only [runSeq, run_log_msg_ok h s s' hs', ih s', List.replicate_succ,
      List.singleton_append]

/-- Witness for C8: two sequential invocations on the concrete buffer host. -/
theorem log_msg_stateless_witness :
    (runSeq bufferHost 2 []).1 =
      List.replicate 2 (HostCall.consoleLog ["Hello, WASM!"]) :=
  log_msg_stateless bufferHost
    (fun c s => match c with | HostCall.consoleLog args => ⟨s ++ [args], rfl⟩) 2 []

/-- C9: the module exports exactly one public entry point to the host
runtime, named `log_msg`; nothing else appears in the export surface. -/
theorem wasmExports_single_entry :
    wasmExports.map Prod.fst = ["log_msg"] ∧ wasmExports.length = 1 :=
  ⟨rfl, rfl⟩

/-- C10: every host call issued by an invocation of `log_msg` passes exactly
one argument to the console primitive — it is the single-argument logging
variant, never the zero- or multi-argument one. -/
theorem log_msg_single_argument {σ ε : Type} (h : HostCall → σ → Except ε σ)
    (s : σ) (c : HostCall) (hc : c ∈ (run h log_msg s).1) :
    c.argCount = 1 := by
  rw [run_log_msg_fst h s] at hc
  rcases List.mem_singleton.mp hc with rfl
  rfl

/-- Witness for C10 on the concrete buffer host. -/
theorem log_msg_single_argument_witness :
    (HostCall.consoleLog ["Hello, WASM!"]).argCount = 1 :=
  log_msg_single_argument bufferHost [] (HostCall.consoleLog ["Hello, WASM!"])
    (by rw [run_log_msg_fst bufferHost []]; exact List.mem_singleton.mpr rfl)
